import Mathlib

/-!
# Verification of the libdogecoin-rs wrapper against its specification

This development shallowly embeds the Rust crate `libdogecoin-rs` (the safe
wrapper in `src/libdogecoin-rs/src/`) in Lean.  Rust strings (`&str`) are
embedded as `List Char`; `CString::new` fails exactly when the string holds a
NUL byte; a Rust panic (`expect`) is embedded as `Except.error` with the
panic message; fallible calls returning `Option`/`bool` keep those shapes.

The wrapper delegates to the vendored libdogecoin C library, which is part of
the repository but not under `src/` (only the bindings and `build.rs` are).
Following the ground rules, every such C function is modelled from the
specification; each of those definitions carries a doc comment starting with
`Modelled from the spec:`.
-/

namespace Doge

/-- The NUL character, which `CString::new` rejects anywhere in its input. -/
def nulChar : Char := Char.ofNat 0

/-- A Rust string holds a NUL byte (so `CString::new` on it fails). -/
def hasNul (l : List Char) : Bool := l.any (fun c => c == nulChar)

/-- Hexadecimal digit, as accepted for txids. -/
def isHexChar (c : Char) : Bool :=
  c.isDigit || ("abcdefABCDEF".toList).contains c

/-- Modelled from the spec: syntactic txid well-formedness — 64 hex
characters (32-byte hash in hex form), per §4.6 "only syntactic txid format
is checked (fails ... on malformed hex/length)". -/
def txidOk (txid : List Char) : Bool :=
  decide (txid.length = 64) && txid.all isHexChar

/-- The Base58 alphabet (no 0, O, I, l). -/
def base58Char (c : Char) : Bool :=
  ("123456789ABCDEFGHJKLMNPQRSTUVWXYZabcdefghijkmnopqrstuvwxyz".toList).contains c

/-- Modelled from the spec: the version-byte prefix of a well-formed P2PKH
address string — mainnet addresses (version byte 0x1E) start with `D`,
testnet addresses (version byte 0x71) start with `n` (§4.2, and repository
tests asserting these leading characters). -/
def versionCharOk (addr : List Char) : Bool :=
  addr.head? == some 'D' || addr.head? == some 'n'

/-- Modelled from the spec: well-formed Base58 address text — nonempty, all
characters Base58, version byte mapping to a known network (§4.2).  The
Base58Check checksum itself belongs to the external codec collaborator
(§1, §6); where a claim needs it, it is passed in as an explicit function. -/
def wellFormedB58 (addr : List Char) : Bool :=
  !addr.isEmpty && addr.all base58Char && versionCharOk addr

/-- Modelled from the spec: the vendored C `verifyP2pkhAddress` (not under
`src/`), per §4.2 — full Base58Check decode plus version-byte check; the
checksum component is the external codec, supplied as `chk`.  The `len`
argument mirrors the C buffer-size parameter and is irrelevant here. -/
def sys_verifyP2pkhAddress (chk : List Char → Bool) (addr : List Char)
    ( _len : Nat) : Bool :=
  wellFormedB58 addr && chk addr

/-- Modelled from the spec: the vendored C `isTestnetFromB58Prefix` — does
the leading Base58 character indicate the testnet version byte. -/
def sys_isTestnetFromB58 (addr : List Char) : Bool :=
  addr.head? == some 'n'

/-- Modelled from the spec: the vendored C `isMainnetFromB58Prefix` — does
the leading Base58 character indicate the mainnet version byte. -/
def sys_isMainnetFromB58 (addr : List Char) : Bool :=
  addr.head? == some 'D'

/-- Modelled from the spec: positive decimal amount text, representable
without precision loss (§4.6 `add_output`): digits with at most one decimal
point and at least one nonzero digit. -/
def posDecimal (amt : List Char) : Bool :=
  !amt.isEmpty
    && amt.all (fun c => c.isDigit || c == '.')
    && decide (amt.countP (fun c => c == '.') ≤ 1)
    && amt.any (fun c => c.isDigit && c != '0')

/-- Modelled from the spec: one transaction slot of libdogecoin's internal
transaction store (§3 Transaction): accumulated inputs (txid, vout),
outputs (address, amount text), the finalized flag of the state machine
Empty → Accumulating → Finalized → Signed (§4.6), and which input indices
have been signed. -/
structure SysTx where
  inputs : List (List Char × Int)
  outputs : List (List Char × List Char)
  finalized : Bool
  signedInputs : List Int
deriving Repr, DecidableEq

/-- The empty transaction slot created by `start_transaction`. -/
def emptySysTx : SysTx := ⟨[], [], false, []⟩

/-- Modelled from the spec: libdogecoin's process-global table of working
transactions, addressed by the numeric handle the wrapper stores (§9 design
note on the opaque numeric handle). -/
structure SysState where
  txs : List (Int × SysTx)
  next : Int
deriving Repr, DecidableEq

/-- Look a transaction slot up by its handle. -/
def findTx : List (Int × SysTx) → Int → Option SysTx
  | [], _ => none
  | (j, t) :: rest, i => if j = i then some t else findTx rest i

/-- Replace the slot stored under a handle (no-op if absent). -/
def setTx : List (Int × SysTx) → Int → SysTx → List (Int × SysTx)
  | [], _, _ => []
  | (j, t) :: rest, i, t' =>
    if j = i then (j, t') :: rest else (j, t) :: setTx rest i t'

/-- Modelled from the spec: the C `start_transaction` — allocates a fresh
empty slot and returns its handle. -/
def sys_start_transaction (s : SysState) : Int × SysState :=
  (s.next, ⟨(s.next, emptySysTx) :: s.txs, s.next + 1⟩)

/-- Modelled from the spec: the C `add_utxo` (§4.6) — appends an input
reference after only a syntactic txid check (no ledger validation); fails
for an unknown handle or once the slot is finalized (adding after `finalize`
is rejected, §4.6).  Returns 1 on success, 0 on failure. -/
def sys_add_utxo (s : SysState) (idx : Int) (txid : List Char) (vout : Int) :
    Int × SysState :=
  match findTx s.txs idx with
  | none => (0, s)
  | some t =>
    if t.finalized then (0, s)
    else if txidOk txid then
      (1, ⟨setTx s.txs idx { t with inputs := t.inputs ++ [(txid, vout)] }, s.next⟩)
    else (0, s)

/-- Modelled from the spec: the C `add_output` (§4.6) — validates the
address and that the amount is a positive decimal, then appends; fails for
an unknown handle or a finalized slot.  The Base58Check checksum is the
external codec (§1) and is abstracted here. -/
def sys_add_output (s : SysState) (idx : Int) (addr amount : List Char) :
    Int × SysState :=
  match findTx s.txs idx with
  | none => (0, s)
  | some t =>
    if t.finalized then (0, s)
    else if wellFormedB58 addr && posDecimal amount then
      (1, ⟨setTx s.txs idx { t with outputs := t.outputs ++ [(addr, amount)] }, s.next⟩)
    else (0, s)

/-- Decimal digits of a natural number, used for the abstract wire format. -/
def natChars (n : Nat) : List Char := (toString n).toList

/-- Modelled from the spec: the serialized wire format (§4.6 `serialize`);
the exact byte layout is irrelevant to every claim, so it is abstracted to a
deterministic rendering of the slot's shape. -/
def serializeTx (t : SysTx) : List Char :=
  natChars t.inputs.length ++ ':' :: natChars t.outputs.length

/-- Modelled from the spec: the C `finalize_transaction` (§4.6) — succeeds
at most once per slot: fails (returns a null string) for an unknown handle,
for an already-finalized slot, or when no inputs were accumulated; otherwise
marks the slot finalized and returns the serialized skeleton.  The
destination argument's verification semantics are explicitly left
unspecified by the spec (§9 open question) and fee/value accounting runs
through an external resolver (§6), so both are not modelled. -/
def sys_finalize (s : SysState) (idx : Int) ( _dest _fee _amount : List Char)
    ( _change : Option (List Char)) : Option (List Char) × SysState :=
  match findTx s.txs idx with
  | none => (none, s)
  | some t =>
    if t.finalized then (none, s)
    else if t.inputs.isEmpty then (none, s)
    else
      (some (serializeTx { t with finalized := true }),
        ⟨setTx s.txs idx { t with finalized := true }, s.next⟩)

/-- Modelled from the spec: the C `sign_transaction` (§4.6 `sign_input_by_script`)
— requires a finalized slot and nonempty script and key material; the
cryptographic signing primitive is the external oracle (§6). -/
def sys_sign_transaction (s : SysState) (idx : Int) (script privkey : List Char) :
    Int × SysState :=
  match findTx s.txs idx with
  | none => (0, s)
  | some t =>
    if !t.finalized then (0, s)
    else if script.isEmpty || privkey.isEmpty then (0, s)
    else (1, s)

/-- Modelled from the spec: the C `sign_transaction_w_privkey` (§4.6
`sign_input`) — requires a finalized slot, an input index in range and key
material; marks that input signed.  ECDSA itself is the external oracle (§6). -/
def sys_sign_transaction_w_privkey (s : SysState) (idx : Int) (vout : Int)
    (privkey : List Char) : Int × SysState :=
  match findTx s.txs idx with
  | none => (0, s)
  | some t =>
    if !t.finalized then (0, s)
    else if privkey.isEmpty then (0, s)
    else if vout < 0 ∨ (t.inputs.length : Int) ≤ vout then (0, s)
    else
      (1, ⟨setTx s.txs idx { t with signedInputs := vout :: t.signedInputs }, s.next⟩)

/-- Modelled from the spec: the C `get_raw_transaction` — the serialized
form of a finalized slot, null otherwise (§4.6 `serialize` rejects
incomplete transactions). -/
def sys_get_raw (s : SysState) (idx : Int) : Option (List Char) :=
  match findTx s.txs idx with
  | none => none
  | some t => if t.finalized then some (serializeTx t) else none

/-! ## The wrapper type `DogeTransaction` (src/libdogecoin-rs/src/transaction.rs)

Each method is translated from the Rust source.  A method taking `&mut self`
returns the builder value it leaves behind; since the source never assigns
`tx_index`, that value is rebuilt from the same field.  `CString::new(x)
.expect(msg)` becomes a `hasNul` test returning `Except.error msg`. -/

/-- The transaction builder: it stores only the numeric handle into the
library's transaction table (transaction.rs line 21). -/
structure DogeTransaction where
  tx_index : Int
deriving Repr, DecidableEq

/-- `DogeTransaction::new` (transaction.rs lines 29–32). -/
def DogeTransaction.new (s : SysState) : DogeTransaction × SysState :=
  let p := sys_start_transaction s
  (⟨p.1⟩, p.2)

/-- `DogeTransaction::add_utxo` (transaction.rs lines 42–46):
`CString::new(txid).expect("Invalid txid string")`, then the C call,
returning `result == 1`. -/
def DogeTransaction.add_utxo (self : DogeTransaction) (s : SysState)
    (txid : List Char) (vout : Int) :
    Except String (DogeTransaction × Bool × SysState) :=
  if hasNul txid then .error "Invalid txid string"
  else
    let p := sys_add_utxo s self.tx_index txid vout
    .ok (⟨self.tx_index⟩, p.1 == 1, p.2)

/-- `DogeTransaction::add_output` (transaction.rs lines 56–67): address then
amount converted with `expect`, then the C call, returning `result == 1`. -/
def DogeTransaction.add_output (self : DogeTransaction) (s : SysState)
    (address amount : List Char) :
    Except String (DogeTransaction × Bool × SysState) :=
  if hasNul address then .error "Invalid address"
  else if hasNul amount then .error "Invalid amount"
  else
    let p := sys_add_output s self.tx_index address amount
    .ok (⟨self.tx_index⟩, p.1 == 1, p.2)

/-- `DogeTransaction::finalize` (transaction.rs lines 78–113): destination,
fee and (when present) change address converted with `expect`, the
verification amount fixed to "0", then the C call; a null pointer becomes
`None`, otherwise the owned hex string. -/
def DogeTransaction.finalize (self : DogeTransaction) (s : SysState)
    (destination fee : List Char) (change_address : Option (List Char)) :
    Except String (Option (List Char) × SysState) :=
  if hasNul destination then .error "Invalid destination"
  else if hasNul fee then .error "Invalid fee"
  else
    match change_address with
    | some c =>
      if hasNul c then .error "Invalid change address"
      else .ok (sys_finalize s self.tx_index destination fee ['0'] (some c))
    | none => .ok (sys_finalize s self.tx_index destination fee ['0'] none)

/-- `DogeTransaction::sign` (transaction.rs lines 123–134): script then
private key converted with `expect`, then the C call. -/
def DogeTransaction.sign (self : DogeTransaction) (s : SysState)
    (script_pubkey privkey : List Char) :
    Except String (DogeTransaction × Bool × SysState) :=
  if hasNul script_pubkey then .error "Invalid script"
  else if hasNul privkey then .error "Invalid privkey"
  else
    let p := sys_sign_transaction s self.tx_index script_pubkey privkey
    .ok (⟨self.tx_index⟩, p.1 == 1, p.2)

/-- `DogeTransaction::sign_with_privkey` (transaction.rs lines 144–154):
private key converted with `expect`, then the C call. -/
def DogeTransaction.sign_with_privkey (self : DogeTransaction) (s : SysState)
    (vout_index : Int) (privkey : List Char) :
    Except String (DogeTransaction × Bool × SysState) :=
  if hasNul privkey then .error "Invalid privkey"
  else
    let p := sys_sign_transaction_w_privkey s self.tx_index vout_index privkey
    .ok (⟨self.tx_index⟩, p.1 == 1, p.2)

/-- `DogeTransaction::get_raw` (transaction.rs lines 160–168). -/
def DogeTransaction.get_raw (self : DogeTransaction) (s : SysState) :
    Option (List Char) :=
  sys_get_raw s self.tx_index

/-- `DogeTransaction::index` (transaction.rs lines 171–173). -/
def DogeTransaction.index (self : DogeTransaction) : Int :=
  self.tx_index

/-- The boolean observable a caller gets out of `add_utxo`/`add_output`/
`sign`/`sign_with_privkey`: `some b` for a normal return, `none` for a
panic. -/
def bres? (r : Except String (DogeTransaction × Bool × SysState)) : Option Bool :=
  match r with
  | .ok (_, b, _) => some b
  | .error _ => none

/-- The observable a caller gets out of `finalize`: `some o` for a normal
return (`o` the optional raw hex), `none` for a panic. -/
def finRes? (r : Except String (Option (List Char) × SysState)) :
    Option (Option (List Char)) :=
  match r with
  | .ok (o, _) => some o
  | .error _ => none

/-! ## Message signing (src/libdogecoin-rs/src/message.rs)

The C `sign_message`/`verify_message` pair is the external signing oracle
(§6); it is modelled from §4.5: a signature binds the key and the exact
message, and `verify` recovers the key from the signature, derives its
address and compares.  The binding is realised by a concrete injective
pairing of key and message into the signature text. -/

/-- Modelled from the spec: the signature encoding — an injective pairing of
(key, message): a unary length prefix in `*`, a `:` separator, then the key
followed by the message. -/
def encodePair (a b : List Char) : List Char :=
  List.replicate a.length '*' ++ ':' :: (a ++ b)

/-- Modelled from the spec: recovery of (key, message) from a signature;
returns `none` on text not produced by `encodePair` (a malformed
signature). -/
def decodePair (s : List Char) : Option (List Char × List Char) :=
  match s.dropWhile (fun c => c == '*') with
  | ':' :: t =>
    let n := (s.takeWhile (fun c => c == '*')).length
    if n ≤ t.length then some (t.take n, t.drop n) else none
  | _ => none

/-- Modelled from the spec: deriving the P2PKH address of the key recovered
from a signature (§4.5 `verify`), abstracted to an injective tagging with
the mainnet version character. -/
def sys_address_of (priv : List Char) : List Char := 'D' :: priv

/-- Modelled from the spec: the C `sign_message` (§4.5 `sign`) — produces
the signature binding key and message; the spec's `CryptoFailure` covers
primitive errors only, which the model does not produce. -/
def sys_sign_message (priv msg : List Char) : Option (List Char) :=
  some (encodePair priv msg)

/-- Modelled from the spec: the C `verify_message` (§4.5 `verify`) —
recovers the key and message bound by the signature, derives the key's
address and requires exact match of both message and address; any malformed
signature yields 0. -/
def sys_verify_message (sig msg addr : List Char) : Int :=
  match decodePair sig with
  | some (p, m) => if m = msg ∧ sys_address_of p = addr then 1 else 0
  | none => 0

/-- `Message::sign` (message.rs lines 14–34): both `CString::new` calls use
`.ok()?`, so a NUL byte yields `None`; a null pointer from the C call also
yields `None`. -/
def Message.sign (privkey_wif message : List Char) : Option (List Char) :=
  if hasNul privkey_wif then none
  else if hasNul message then none
  else
    match sys_sign_message privkey_wif message with
    | none => none
    | some sig => some sig

/-- `Message::verify` (message.rs lines 37–62): each `CString::new` failure
returns `false` through a `match` (never a panic); otherwise the C result is
compared to 1.  The `Except` wrapper is the uniform panic-embedding used for
all wrapper functions; `verify` never produces `.error`. -/
def Message.verify (signature_base64 message address : List Char) :
    Except String Bool :=
  if hasNul signature_base64 then .ok false
  else if hasNul message then .ok false
  else if hasNul address then .ok false
  else .ok (sys_verify_message signature_base64 message address == 1)

/-! ## Mnemonic and HD wallet (src/libdogecoin-rs/src/mnemonic.rs, hdwallet.rs) -/

/-- The entropy sizes §4.4 supports (`UnsupportedEntropySize` otherwise). -/
def validSizes : List (List Char) :=
  ["128", "160", "192", "224", "256"].map String.toList

/-- Number of BIP39 words for an entropy size (§3 Mnemonic invariant). -/
def wordCount (size : List Char) : Nat :=
  if size = "128".toList then 12
  else if size = "160".toList then 15
  else if size = "192".toList then 18
  else if size = "224".toList then 21
  else 24

/-- Join words with single spaces. -/
def spaceJoin : List (List Char) → List Char
  | [] => []
  | [w] => w
  | w :: rest => w ++ ' ' :: spaceJoin rest

/-- Modelled from the spec: the C `generateRandomEnglishMnemonic` (§4.4
`generate`) — nonzero result unless the entropy size is one of
128/160/192/224/256; the random source is external, so the model returns a
deterministic representative phrase of the right word count.  Returns 0 on
success. -/
def sys_generateRandomEnglishMnemonic (size : List Char) : Int × List Char :=
  if validSizes.contains size then
    (0, spaceJoin (List.replicate (wordCount size) ("abandon".toList)))
  else (-1, [])

/-- The `Mnemonic` struct (mnemonic.rs line 37): it stores only the phrase
text (the `Zeroizing` wrapper affects memory wiping, not the value). -/
structure Mnemonic where
  phrase : List Char
deriving Repr, DecidableEq

/-- `Mnemonic::generate` (mnemonic.rs lines 49–70): `CString::new(...).ok()?`
then the C call; any nonzero C result yields `None`. -/
def Mnemonic.generate (entropy_size : List Char) : Option Mnemonic :=
  if hasNul entropy_size then none
  else
    let p := sys_generateRandomEnglishMnemonic entropy_size
    if p.1 != 0 then none else some ⟨p.2⟩

/-- `Mnemonic::from_phrase` (mnemonic.rs lines 76–80): stores the caller's
text verbatim, with no wordlist or checksum check. -/
def Mnemonic.from_phrase (phrase : List Char) : Mnemonic :=
  ⟨phrase⟩

/-- The `HdWallet` struct (hdwallet.rs lines 34–37). -/
structure HdWallet where
  master_key : List Char
  is_testnet : Bool
deriving Repr, DecidableEq

/-- `HdWallet::from_master_key` (hdwallet.rs lines 75–80): stores the
caller's key text and flag verbatim, with no extended-key or network
check. -/
def HdWallet.from_master_key (master_key : List Char) (is_testnet : Bool) :
    HdWallet :=
  ⟨master_key, is_testnet⟩

/-! ## Address utilities (src/libdogecoin-rs/src/address.rs) -/

/-- The network classification returned by `AddressUtils::network`
(address.rs lines 7–12). -/
inductive AddressNetwork
  | Mainnet
  | Testnet
  | Unknown
deriving Repr, DecidableEq

/-- `AddressUtils::is_valid_p2pkh` (address.rs lines 19–33): empty strings
rejected first, `CString::new` failure (a NUL byte) returns `false`, then
the C `verifyP2pkhAddress` with the buffer length `len + 1`.  The external
Base58Check checksum is the explicit `chk` argument. -/
def AddressUtils.is_valid_p2pkh (chk : List Char → Bool) (address : List Char) :
    Bool :=
  if address.isEmpty then false
  else if hasNul address then false
  else sys_verifyP2pkhAddress chk address (address.length + 1)

/-- `AddressUtils::network` (address.rs lines 38–60): `Unknown` unless
`is_valid_p2pkh` succeeds; a second `CString::new` failure also yields
`Unknown`; then the testnet prefix is consulted before the mainnet one. -/
def AddressUtils.network (chk : List Char → Bool) (address : List Char) :
    AddressNetwork :=
  if !(AddressUtils.is_valid_p2pkh chk address) then .Unknown
  else if hasNul address then .Unknown
  else if sys_isTestnetFromB58 address then .Testnet
  else if sys_isMainnetFromB58 address then .Mainnet
  else .Unknown

/-! ## ECC context lifecycle (context.rs, wallet.rs)

The claims about `dogecoin_ecc_start`/`dogecoin_ecc_stop` concern which
calls the wrapper issues, so the embedding is a trace semantics: each public
operation maps the state of the two `std::sync::Once` cells to the list of
ECC start/stop events it emits. -/

/-- An ECC lifecycle event: a `dogecoin_ecc_start` or `dogecoin_ecc_stop`
call crossing into the C library. -/
inductive EccEvent
  | start
  | stop
deriving Repr, DecidableEq

/-- Whether each of the crate's two one-time cells has already run: the
`static INIT: Once` local to `DogeWallet::new` (wallet.rs line 14) and the
`static INIT: Once` inside `ensure_ecc_started` (context.rs line 7). -/
structure OnceState where
  walletOnce : Bool
  contextOnce : Bool
deriving Repr, DecidableEq

/-- `ensure_ecc_started` (context.rs lines 6–11): runs `dogecoin_ecc_start`
through its own `Once`. -/
def ensure_ecc_started (s : OnceState) : OnceState × List EccEvent :=
  if s.contextOnce then (s, [])
  else ({ s with contextOnce := true }, [.start])

/-- The public entry points whose ECC-context behaviour the spec constrains:
`DogeWallet::new`, the operations that call `ensure_ecc_started`
(`HdWallet::new`, `Mnemonic::generate`, `Message::sign`, `Message::verify`),
and `DogecoinContext::new`/`Drop`. -/
inductive ApiCall
  | wallet_new
  | hdwallet_new
  | mnemonic_generate
  | message_sign
  | message_verify
  | context_new
  | context_drop
deriving Repr, DecidableEq

/-- The ECC events one public call emits: `DogeWallet::new` starts through
its private `Once` (wallet.rs lines 14–17); the HD/mnemonic/message entry
points call `ensure_ecc_started`; `DogecoinContext::new` calls
`dogecoin_ecc_start` unconditionally (context.rs lines 23–28) and its `Drop`
calls `dogecoin_ecc_stop` (context.rs lines 37–43). -/
def apiEffect (s : OnceState) : ApiCall → OnceState × List EccEvent
  | .wallet_new =>
    if s.walletOnce then (s, [])
    else ({ s with walletOnce := true }, [.start])
  | .hdwallet_new => ensure_ecc_started s
  | .mnemonic_generate => ensure_ecc_started s
  | .message_sign => ensure_ecc_started s
  | .message_verify => ensure_ecc_started s
  | .context_new => (s, [.start])
  | .context_drop => (s, [.stop])

/-- Run a sequence of public calls, collecting all emitted ECC events. -/
def runCalls : OnceState → List ApiCall → OnceState × List EccEvent
  | s, [] => (s, [])
  | s, c :: rest =>
    let p := apiEffect s c
    let q := runCalls p.1 rest
    (q.1, p.2 ++ q.2)

/-- Number of `dogecoin_ecc_start` calls in a trace. -/
def countStart (l : List EccEvent) : Nat :=
  l.countP (fun e => e == EccEvent.start)

/-- Number of `dogecoin_ecc_stop` calls in a trace. -/
def countStop (l : List EccEvent) : Nat :=
  l.countP (fun e => e == EccEvent.stop)

/-- The calls that go through `ensure_ecc_started`'s `Once`. -/
def usesCtxOnce : ApiCall → Bool
  | .hdwallet_new => true
  | .mnemonic_generate => true
  | .message_sign => true
  | .message_verify => true
  | _ => false

/-- Recognises `DogeWallet::new` (the call using the wallet-local `Once`). -/
def isWalletNew : ApiCall → Bool
  | .wallet_new => true
  | _ => false

/-- Recognises `DogecoinContext::new` (an unguarded start). -/
def isCtxNew : ApiCall → Bool
  | .context_new => true
  | _ => false

/-- Recognises a `DogecoinContext` drop (an immediate stop). -/
def isCtxDrop : ApiCall → Bool
  | .context_drop => true
  | _ => false

/-! ## Operation sequences over one builder (for the index invariant) -/

/-- One public operation on a `DogeTransaction` builder. -/
inductive TxOp
  | opAddUtxo (txid : List Char) (vout : Int)
  | opAddOutput (address amount : List Char)
  | opFinalize (dest fee : List Char) (change : Option (List Char))
  | opSign (script privkey : List Char)
  | opSignWithPrivkey (vout : Int) (privkey : List Char)
  | opGetRaw

/-- Apply one operation; `none` means the operation panicked. -/
def applyOp (tx : DogeTransaction) (s : SysState) :
    TxOp → Option (DogeTransaction × SysState)
  | .opAddUtxo txid vout =>
    match tx.add_utxo s txid vout with
    | .error _ => none
    | .ok (tx', _, s') => some (tx', s')
  | .opAddOutput address amount =>
    match tx.add_output s address amount with
    | .error _ => none
    | .ok (tx', _, s') => some (tx', s')
  | .opFinalize dest fee change =>
    match tx.finalize s dest fee change with
    | .error _ => none
    | .ok (_, s') => some (tx, s')
  | .opSign script privkey =>
    match tx.sign s script privkey with
    | .error _ => none
    | .ok (tx', _, s') => some (tx', s')
  | .opSignWithPrivkey vout privkey =>
    match tx.sign_with_privkey s vout privkey with
    | .error _ => none
    | .ok (tx', _, s') => some (tx', s')
  | .opGetRaw => some (tx, s)

/-- Apply a sequence of operations, stopping at the first panic. -/
def applyOps : List TxOp → DogeTransaction → SysState →
    Option (DogeTransaction × SysState)
  | [], tx, s => some (tx, s)
  | op :: rest, tx, s =>
    match applyOp tx s op with
    | none => none
    | some (tx', s') => applyOps rest tx' s'

/-- A NUL test on an optional string (for the optional change address). -/
def hasNulOpt : Option (List Char) → Bool
  | none => false
  | some c => hasNul c

/-! ## Supporting lemmas -/

/-- Updating a stored slot is visible to a subsequent lookup. -/
lemma findTx_setTx {l : List (Int × SysTx)} {i : Int} {t : SysTx}
    (t' : SysTx) (h : findTx l i = some t) :
    findTx (setTx l i t') i = some t' := by
  induction l with
  | nil => simp [findTx] at h
  | cons hd rest ih =>
    obtain ⟨j, u⟩ := hd
    by_cases hji : j = i
    · simp [findTx, setTx, hji]
    · simp only [findTx, setTx, if_neg hji] at h ⊢
      exact ih h

/-- A successful `sys_finalize` leaves the slot present and finalized. -/
lemma sys_finalize_marks_finalized {s : SysState} {i : Int}
    {d f a : List Char} {c : Option (List Char)} {raw : List Char}
    (h : (sys_finalize s i d f a c).1 = some raw) :
    ∃ t', findTx (sys_finalize s i d f a c).2.txs i = some t' ∧
      t'.finalized = true := by
  cases ht : findTx s.txs i with
  | none => simp [sys_finalize, ht] at h
  | some t =>
    by_cases hfin : t.finalized
    · simp [sys_finalize, ht, hfin] at h
    · by_cases hin : t.inputs.isEmpty
      · simp [sys_finalize, ht, hfin, hin] at h
      · refine ⟨{ t with finalized := true }, ?_, rfl⟩
        simp only [sys_finalize, ht, hfin, hin, Bool.false_eq_true, if_false]
        exact findTx_setTx _ ht

/-- Once a slot is finalized it stays finalized through
`sys_sign_transaction_w_privkey`. -/
lemma sys_sign_w_privkey_preserves_finalized {s : SysState} {i v : Int}
    {p : List Char} {t : SysTx}
    (h : findTx s.txs i = some t) (hfin : t.finalized = true) :
    ∃ t', findTx (sys_sign_transaction_w_privkey s i v p).2.txs i = some t' ∧
      t'.finalized = true := by
  by_cases hp : p.isEmpty
  · exact ⟨t, by simp [sys_sign_transaction_w_privkey, h, hfin, hp], hfin⟩
  · by_cases hv : v < 0 ∨ (t.inputs.length : Int) ≤ v
    · exact ⟨t, by simp [sys_sign_transaction_w_privkey, h, hfin, hp, hv], hfin⟩
    · refine ⟨{ t with signedInputs := v :: t.signedInputs }, ?_, hfin⟩
      simp only [sys_sign_transaction_w_privkey, h, hfin, Bool.not_true,
        Bool.false_eq_true, if_false, hp, hv]
      exact findTx_setTx _ h

/-- On a finalized slot, the wrapper's `finalize` returns `None` without
touching the state. -/
lemma finalize_on_finalized_slot {tx : DogeTransaction} {s : SysState}
    {d f : List Char} {c : Option (List Char)} {t : SysTx}
    (hd : hasNul d = false) (hf : hasNul f = false)
    (hc : hasNulOpt c = false)
    (ht : findTx s.txs tx.tx_index = some t) (hfin : t.finalized = true) :
    tx.finalize s d f c = .ok (none, s) := by
  have hsys : sys_finalize s tx.tx_index d f ['0'] c = (none, s) := by
    simp [sys_finalize, ht, hfin]
  cases c with
  | none => simp [DogeTransaction.finalize, hd, hf, hsys]
  | some cv =>
    have hcv : hasNul cv = false := hc
    simp [DogeTransaction.finalize, hd, hf, hcv, hsys]

/-- A successful wrapper `finalize` leaves the slot finalized in the
returned state. -/
lemma finalize_ok_marks_finalized {tx : DogeTransaction} {s s2 : SysState}
    {d f : List Char} {c : Option (List Char)} {raw : List Char}
    (h : tx.finalize s d f c = .ok (some raw, s2)) :
    ∃ t', findTx s2.txs tx.tx_index = some t' ∧ t'.finalized = true := by
  have hsys : sys_finalize s tx.tx_index d f ['0'] c = (some raw, s2) := by
    by_cases hd : hasNul d
    · simp [DogeTransaction.finalize, hd] at h
    · by_cases hf : hasNul f
      · simp [DogeTransaction.finalize, hd, hf] at h
      · cases c with
        | none =>
          simpa [DogeTransaction.finalize, hd, hf] using h
        | some cv =>
          by_cases hcv : hasNul cv
          · simp [DogeTransaction.finalize, hd, hf, hcv] at h
          · simpa [DogeTransaction.finalize, hd, hf, hcv] using h
  have h1 : (sys_finalize s tx.tx_index d f ['0'] c).1 = some raw := by
    rw [hsys]
  have := sys_finalize_marks_finalized h1
  rwa [hsys] at this

/-- The unary length prefix of a signature is read back in full. -/
lemma takeWhile_star (n : Nat) (l : List Char) :
    (List.replicate n '*' ++ ':' :: l).takeWhile (fun c => c == '*')
      = List.replicate n '*' := by
  induction n with
  | zero => simp [List.takeWhile]
  | succ k ih => simp [List.replicate, List.takeWhile, ih]

/-- Dropping the unary length prefix exposes the separator. -/
lemma dropWhile_star (n : Nat) (l : List Char) :
    (List.replicate n '*' ++ ':' :: l).dropWhile (fun c => c == '*')
      = ':' :: l := by
  induction n with
  | zero => simp [List.dropWhile]
  | succ k ih => simp [List.replicate, List.dropWhile, ih]

/-- Signature decoding recovers exactly the key and message that were
encoded: the model signature binds both. -/
lemma decodePair_encodePair (a b : List Char) :
    decodePair (encodePair a b) = some (a, b) := by
  unfold decodePair encodePair
  rw [dropWhile_star, takeWhile_star]
  simp [List.take_left, List.drop_left]

/-- A replicated non-NUL character contributes no NUL byte. -/
lemma hasNul_replicate_star (n : Nat) :
    hasNul (List.replicate n '*') = false := by
  simp [hasNul, nulChar, List.any_eq_true, List.mem_replicate]

/-- NUL-freedom is preserved by the signature encoding. -/
lemma hasNul_encodePair {a b : List Char}
    (ha : hasNul a = false) (hb : hasNul b = false) :
    hasNul (encodePair a b) = false := by
  have h1 := hasNul_replicate_star a.length
  simp only [hasNul] at ha hb h1
  simp only [hasNul, encodePair, List.any_append, List.any_cons]
  rw [h1, ha, hb, show (':' == nulChar) = false from by decide]
  rfl

/-- NUL-freedom is preserved by the model address derivation. -/
lemma hasNul_address_of {p : List Char} (hp : hasNul p = false) :
    hasNul (sys_address_of p) = false := by
  simp only [hasNul] at hp
  simp only [hasNul, sys_address_of, List.any_cons]
  rw [hp, show ('D' == nulChar) = false from by decide]
  rfl

/-- A valid address has no NUL byte and a recognised version character. -/
lemma is_valid_components {chk : List Char → Bool} {addr : List Char}
    (h : AddressUtils.is_valid_p2pkh chk addr = true) :
    hasNul addr = false ∧ versionCharOk addr = true := by
  by_cases he : addr.isEmpty
  · simp [AddressUtils.is_valid_p2pkh, he] at h
  · by_cases hn : hasNul addr
    · simp [AddressUtils.is_valid_p2pkh, he, hn] at h
    · have hn' : hasNul addr = false := by
        revert hn; cases hasNul addr <;> simp
      have hwf : wellFormedB58 addr = true := by
        have h2 : wellFormedB58 addr && chk addr = true := by
          simpa [AddressUtils.is_valid_p2pkh, he, hn',
            sys_verifyP2pkhAddress] using h
        exact (Bool.and_eq_true _ _ |>.mp h2).1
      refine ⟨hn', ?_⟩
      have h3 := Bool.and_eq_true _ _ |>.mp hwf
      exact h3.2

/-- A successful `add_utxo` returns the builder with the same stored
handle. -/
lemma add_utxo_ok_index {tx : DogeTransaction} {s : SysState}
    {txid : List Char} {vout : Int} {p : DogeTransaction × Bool × SysState}
    (h : tx.add_utxo s txid vout = .ok p) : p.1.tx_index = tx.tx_index := by
  by_cases hN : hasNul txid
  · simp [DogeTransaction.add_utxo, hN] at h
  · unfold DogeTransaction.add_utxo at h
    rw [if_neg (by simp [hN])] at h
    injection h with h
    rw [← h]

/-- A successful `add_output` returns the builder with the same stored
handle. -/
lemma add_output_ok_index {tx : DogeTransaction} {s : SysState}
    {address amount : List Char} {p : DogeTransaction × Bool × SysState}
    (h : tx.add_output s address amount = .ok p) :
    p.1.tx_index = tx.tx_index := by
  by_cases h1 : hasNul address
  · simp [DogeTransaction.add_output, h1] at h
  · by_cases h2 : hasNul amount
    · simp [DogeTransaction.add_output, h1, h2] at h
    · unfold DogeTransaction.add_output at h
      rw [if_neg (by simp [h1]), if_neg (by simp [h2])] at h
      injection h with h
      rw [← h]

/-- A successful `sign` returns the builder with the same stored handle. -/
lemma sign_ok_index {tx : DogeTransaction} {s : SysState}
    {script privkey : List Char} {p : DogeTransaction × Bool × SysState}
    (h : tx.sign s script privkey = .ok p) : p.1.tx_index = tx.tx_index := by
  by_cases h1 : hasNul script
  · simp [DogeTransaction.sign, h1] at h
  · by_cases h2 : hasNul privkey
    · simp [DogeTransaction.sign, h1, h2] at h
    · unfold DogeTransaction.sign at h
      rw [if_neg (by simp [h1]), if_neg (by simp [h2])] at h
      injection h with h
      rw [← h]

/-- A successful `sign_with_privkey` returns the builder with the same
stored handle. -/
lemma sign_with_privkey_ok_index {tx : DogeTransaction} {s : SysState}
    {vout : Int} {privkey : List Char} {p : DogeTransaction × Bool × SysState}
    (h : tx.sign_with_privkey s vout privkey = .ok p) :
    p.1.tx_index = tx.tx_index := by
  by_cases h1 : hasNul privkey
  · simp [DogeTransaction.sign_with_privkey, h1] at h
  · unfold DogeTransaction.sign_with_privkey at h
    rw [if_neg (by simp [h1])] at h
    injection h with h
    rw [← h]

/-- No single operation changes the builder's stored handle. -/
lemma applyOp_preserves_index {tx : DogeTransaction} {s : SysState}
    {op : TxOp} {tx' : DogeTransaction} {s' : SysState}
    (h : applyOp tx s op = some (tx', s')) : tx'.tx_index = tx.tx_index := by
  cases op with
  | opAddUtxo txid vout =>
    cases hcall : tx.add_utxo s txid vout with
    | error e => simp [applyOp, hcall] at h
    | ok p =>
      simp [applyOp, hcall] at h
      rw [← h.1]
      exact add_utxo_ok_index hcall
  | opAddOutput address amount =>
    cases hcall : tx.add_output s address amount with
    | error e => simp [applyOp, hcall] at h
    | ok p =>
      simp [applyOp, hcall] at h
      rw [← h.1]
      exact add_output_ok_index hcall
  | opFinalize dest fee change =>
    cases hcall : tx.finalize s dest fee change with
    | error e => simp [applyOp, hcall] at h
    | ok p =>
      simp [applyOp, hcall] at h
      rw [← h.1]
  | opSign script privkey =>
    cases hcall : tx.sign s script privkey with
    | error e => simp [applyOp, hcall] at h
    | ok p =>
      simp [applyOp, hcall] at h
      rw [← h.1]
      exact sign_ok_index hcall
  | opSignWithPrivkey vout privkey =>
    cases hcall : tx.sign_with_privkey s vout privkey with
    | error e => simp [applyOp, hcall] at h
    | ok p =>
      simp [applyOp, hcall] at h
      rw [← h.1]
      exact sign_with_privkey_ok_index hcall
  | opGetRaw =>
    simp [applyOp] at h
    rw [← h.1]

/-! ## Concrete fixtures used by witnesses and counterexamples -/

/-- A syntactically well-formed 64-hex-character txid. -/
def tid64 : List Char := List.replicate 64 'a'

/-- A well-formed mainnet-style Base58 address text. -/
def addrD : List Char := 'D' :: List.replicate 30 'a'

/-- A fee amount text. -/
def feeC : List Char := ['1']

/-- The library state right after `start_transaction` allocated slot 0. -/
def slotFresh : SysState := ⟨[(0, emptySysTx)], 1⟩

/-- Slot 0 carrying one accumulated input, not yet finalized. -/
def slotWithInput : SysState := ⟨[(0, ⟨[(tid64, 0)], [], false, []⟩)], 1⟩

/-- Slot 0 carrying one accumulated input, already finalized. -/
def slotFinalized : SysState := ⟨[(0, ⟨[(tid64, 0)], [], true, []⟩)], 1⟩

/-! ## Claim theorems -/

/-- Claim C1 (amended): on a builder whose `finalize` has already succeeded,
a second `finalize` fails — but it fails by returning `None` (embedded as
`.ok (none, _)`), not with an `InvalidState` error kind, and the same holds
after an intervening `sign_with_privkey` call, whether or not that signing
succeeded. -/
theorem finalize_is_one_shot (tx : DogeTransaction) (s s2 : SysState)
    (d f d2 f2 : List Char) (c c2 : Option (List Char)) (raw : List Char)
    (hd2 : hasNul d2 = false) (hf2 : hasNul f2 = false)
    (hc2 : hasNulOpt c2 = false)
    (h1 : tx.finalize s d f c = .ok (some raw, s2)) :
    tx.finalize s2 d2 f2 c2 = .ok (none, s2) ∧
    (∀ (v : Int) (p : List Char) (tx3 : DogeTransaction) (b : Bool)
      (s3 : SysState), tx.sign_with_privkey s2 v p = .ok (tx3, b, s3) →
      tx.finalize s3 d2 f2 c2 = .ok (none, s3)) := by
  obtain ⟨t1, ht1, hfin1⟩ := finalize_ok_marks_finalized h1
  constructor
  · exact finalize_on_finalized_slot hd2 hf2 hc2 ht1 hfin1
  · intro v p tx3 b s3 hsign
    by_cases hp : hasNul p
    · simp [DogeTransaction.sign_with_privkey, hp] at hsign
    · simp [DogeTransaction.sign_with_privkey, hp] at hsign
      obtain ⟨t2, ht2, hfin2⟩ :=
        sys_sign_w_privkey_preserves_finalized (v := v) (p := p) ht1 hfin1
      rw [← hsign.2.2]
      exact finalize_on_finalized_slot hd2 hf2 hc2 ht2 hfin2

/-- Witness for C1: on the concrete finalized slot, the second `finalize`
returns `None`, obtained by applying `finalize_is_one_shot` to the
successful first `finalize` on `slotWithInput`. -/
theorem finalize_is_one_shot_witness :
    DogeTransaction.finalize ⟨0⟩ slotFinalized addrD feeC none =
      .ok (none, slotFinalized) :=
  (finalize_is_one_shot ⟨0⟩ slotWithInput slotFinalized addrD feeC addrD feeC
    none none ("1:0".toList) (by decide) (by decide) (by decide)
    (by rfl)).1

/-- Counterexample for C1 as stated: the failure of the second `finalize`
on the already-finalized builder 0 is the bare `None`, and so is the
failure of `finalize` on the unknown handle 99 — the wrapper's result type
(`Option<String>`) carries no `InvalidState` (or any other) error kind, so
the re-finalize failure is not distinguishable as `InvalidState`. -/
theorem finalize_no_invalid_state_kind :
    finRes? (DogeTransaction.finalize ⟨0⟩ slotFinalized addrD feeC none) =
      some none ∧
    finRes? (DogeTransaction.finalize ⟨99⟩ slotFinalized addrD feeC none) =
      some none := by
  constructor <;> rfl

/-- Claim C2 (amended): the wrapper's operations collapse every failure
condition into a generic `false` (for the `bool`-returning transaction
operations) or `None` (for `Option`-returning constructors such as
`Mnemonic::generate`); no error kind of the spec's taxonomy is exposed.
Distinct failure causes — unknown builder handle, invalid address,
unsupported entropy size — produce identical observables. -/
theorem failures_collapse_to_generic (tx : DogeTransaction) (s : SysState)
    (addr amt size : List Char)
    (ha : hasNul addr = false) (hm : hasNul amt = false)
    (hs : hasNul size = false) :
    (findTx s.txs tx.tx_index = none →
      bres? (tx.add_output s addr amt) = some false) ∧
    (wellFormedB58 addr = false → ∀ t, findTx s.txs tx.tx_index = some t →
      t.finalized = false → bres? (tx.add_output s addr amt) = some false) ∧
    (validSizes.contains size = false → Mnemonic.generate size = none) := by
  refine ⟨?_, ?_, ?_⟩
  · intro h
    simp [bres?, DogeTransaction.add_output, ha, hm, sys_add_output, h]
  · intro hb t ht hfin
    simp [bres?, DogeTransaction.add_output, ha, hm, sys_add_output, ht,
      hfin, hb]
  · intro hc
    simp at hc
    simp [Mnemonic.generate, hs, sys_generateRandomEnglishMnemonic, hc]

/-- Witness for C2: a concrete unknown-handle `add_output` failure is the
bare `false`, and a concrete unsupported entropy size yields the bare
`None`, both via `failures_collapse_to_generic`. -/
theorem failures_collapse_to_generic_witness :
    bres? (DogeTransaction.add_output ⟨99⟩ slotFresh addrD ['5']) =
      some false ∧
    Mnemonic.generate ("123".toList) = none :=
  ⟨(failures_collapse_to_generic ⟨99⟩ slotFresh addrD ['5'] ("123".toList)
      (by decide) (by decide) (by decide)).1 (by rfl),
   (failures_collapse_to_generic ⟨99⟩ slotFresh addrD ['5'] ("123".toList)
      (by decide) (by decide) (by decide)).2.2 (by decide)⟩

/-- Counterexample for C2 as stated: four distinct failure conditions —
an invalid destination address, an unknown builder handle, an unsupported
entropy size, and a NUL byte in the entropy-size string — produce the
identical generic observables `false` and `None`; no result distinguishes
a specific error kind, contradicting the claimed propagation policy. -/
theorem error_kinds_absent :
    bres? (DogeTransaction.add_output ⟨0⟩ slotFresh
      ("not-an-address".toList) ['5']) = some false ∧
    bres? (DogeTransaction.add_output ⟨99⟩ slotFresh addrD ['5']) =
      some false ∧
    Mnemonic.generate ("129".toList) = none ∧
    Mnemonic.generate ("12\x008".toList) = none := by
  refine ⟨rfl, rfl, rfl, rfl⟩

/-- Claim C3 (amended): the two `Once` barriers (`DogeWallet::new`'s local
one and `ensure_ecc_started`'s) each fire at most once, but they are
independent of each other and of `DogecoinContext`, so across a sequence of
public calls the number of `dogecoin_ecc_start` events is one per barrier
touched plus one per `DogecoinContext::new`, and `dogecoin_ecc_stop` fires
exactly once per `DogecoinContext` drop (not at process exit). -/
theorem ecc_trace_characterization (calls : List ApiCall) (s : OnceState) :
    countStart (runCalls s calls).2 =
      ((!s.walletOnce) && calls.any isWalletNew).toNat
        + ((!s.contextOnce) && calls.any usesCtxOnce).toNat
        + calls.countP isCtxNew ∧
    countStop (runCalls s calls).2 = calls.countP isCtxDrop := by
  induction calls generalizing s with
  | nil => simp [runCalls, countStart, countStop]
  | cons c rest ih =>
    cases c with
    | wallet_new =>
      by_cases hw : s.walletOnce
      · have h := ih s
        simp [runCalls, apiEffect, hw, countStart, countStop,
          List.countP_append, List.countP_cons, List.any_cons,
          isWalletNew, isCtxNew, isCtxDrop, usesCtxOnce] at h ⊢
        exact ⟨h.1, h.2⟩
      · have h := ih { s with walletOnce := true }
        simp [runCalls, apiEffect, hw, countStart, countStop,
          List.countP_append, List.countP_cons, List.any_cons,
          isWalletNew, isCtxNew, isCtxDrop, usesCtxOnce] at h ⊢
        refine ⟨?_, h.2⟩
        rw [h.1]
        cases hc : s.contextOnce <;> simp <;> omega
    | hdwallet_new =>
      by_cases hx : s.contextOnce
      · have h := ih s
        simp [runCalls, apiEffect, ensure_ecc_started, hx, countStart,
          countStop, List.countP_append, List.countP_cons, List.any_cons,
          isWalletNew, isCtxNew, isCtxDrop, usesCtxOnce] at h ⊢
        exact ⟨h.1, h.2⟩
      · have h := ih { s with contextOnce := true }
        simp [runCalls, apiEffect, ensure_ecc_started, hx, countStart,
          countStop, List.countP_append, List.countP_cons, List.any_cons,
          isWalletNew, isCtxNew, isCtxDrop, usesCtxOnce] at h ⊢
        refine ⟨?_, h.2⟩
        rw [h.1]
        cases hw : s.walletOnce <;> simp <;> omega
    | mnemonic_generate =>
      by_cases hx : s.contextOnce
      · have h := ih s
        simp [runCalls, apiEffect, ensure_ecc_started, hx, countStart,
          countStop, List.countP_append, List.countP_cons, List.any_cons,
          isWalletNew, isCtxNew, isCtxDrop, usesCtxOnce] at h ⊢
        exact ⟨h.1, h.2⟩
      · have h := ih { s with contextOnce := true }
        simp [runCalls, apiEffect, ensure_ecc_started, hx, countStart,
          countStop, List.countP_append, List.countP_cons, List.any_cons,
          isWalletNew, isCtxNew, isCtxDrop, usesCtxOnce] at h ⊢
        refine ⟨?_, h.2⟩
        rw [h.1]
        cases hw : s.walletOnce <;> simp <;> omega
    | message_sign =>
      by_cases hx : s.contextOnce
      · have h := ih s
        simp [runCalls, apiEffect, ensure_ecc_started, hx, countStart,
          countStop, List.countP_append, List.countP_cons, List.any_cons,
          isWalletNew, isCtxNew, isCtxDrop, usesCtxOnce] at h ⊢
        exact ⟨h.1, h.2⟩
      · have h := ih { s with contextOnce := true }
        simp [runCalls, apiEffect, ensure_ecc_started, hx, countStart,
          countStop, List.countP_append, List.countP_cons, List.any_cons,
          isWalletNew, isCtxNew, isCtxDrop, usesCtxOnce] at h ⊢
        refine ⟨?_, h.2⟩
        rw [h.1]
        cases hw : s.walletOnce <;> simp <;> omega
    | message_verify =>
      by_cases hx : s.contextOnce
      · have h := ih s
        simp [runCalls, apiEffect, ensure_ecc_started, hx, countStart,
          countStop, List.countP_append, List.countP_cons, List.any_cons,
          isWalletNew, isCtxNew, isCtxDrop, usesCtxOnce] at h ⊢
        exact ⟨h.1, h.2⟩
      · have h := ih { s with contextOnce := true }
        simp [runCalls, apiEffect, ensure_ecc_started, hx, countStart,
          countStop, List.countP_append, List.countP_cons, List.any_cons,
          isWalletNew, isCtxNew, isCtxDrop, usesCtxOnce] at h ⊢
        refine ⟨?_, h.2⟩
        rw [h.1]
        cases hw : s.walletOnce <;> simp <;> omega
    | context_new =>
      have h := ih s
      simp [runCalls, apiEffect, countStart, countStop, List.countP_append,
        List.countP_cons, List.any_cons,
        isWalletNew, isCtxNew, isCtxDrop, usesCtxOnce] at h ⊢
      refine ⟨?_, h.2⟩
      rw [h.1]
      omega
    | context_drop =>
      have h := ih s
      simp [runCalls, apiEffect, countStart, countStop, List.countP_append,
        List.countP_cons, List.any_cons,
        isWalletNew, isCtxNew, isCtxDrop, usesCtxOnce] at h ⊢
      exact ⟨h.1, by rw [h.2]⟩

/-- Counterexample for C3 as stated: `DogeWallet::new` followed by
`HdWallet::new` issues two `dogecoin_ecc_start` calls (two independent
`Once` cells), and two `DogecoinContext` create/drop pairs issue two
`dogecoin_ecc_stop` calls before process exit — the context is neither
initialized exactly once nor torn down exactly once at process exit. -/
theorem ecc_double_init :
    countStart (runCalls ⟨false, false⟩
      [ApiCall.wallet_new, ApiCall.hdwallet_new]).2 = 2 ∧
    countStop (runCalls ⟨false, false⟩
      [ApiCall.context_new, ApiCall.context_drop, ApiCall.context_new,
        ApiCall.context_drop]).2 = 2 := by
  constructor <;> rfl

/-- Claim C4: for every key and message (NUL-free, as required to cross the
FFI boundary at all), signing succeeds and the signature verifies against
the message and the key's address, while verification against any different
message fails.  The signature produced by the model oracle is
`encodePair priv msg`. -/
theorem message_sign_verify_roundtrip (priv msg m2 : List Char)
    (hpriv : hasNul priv = false) (hmsg : hasNul msg = false)
    (hm2 : hasNul m2 = false) (hne : m2 ≠ msg) :
    Message.sign priv msg = some (encodePair priv msg) ∧
    Message.verify (encodePair priv msg) msg (sys_address_of priv) =
      .ok true ∧
    Message.verify (encodePair priv msg) m2 (sys_address_of priv) =
      .ok false := by
  have hsig := hasNul_encodePair hpriv hmsg
  have haddr := hasNul_address_of hpriv
  refine ⟨?_, ?_, ?_⟩
  · simp [Message.sign, hpriv, hmsg, sys_sign_message]
  · simp [Message.verify, hsig, hmsg, haddr, sys_verify_message,
      decodePair_encodePair]
  · simp [Message.verify, hsig, hm2, haddr, sys_verify_message,
      decodePair_encodePair, Ne.symm hne]

/-- Witness for C4 at a concrete key and two concrete messages. -/
theorem message_sign_verify_roundtrip_witness :
    Message.sign ("key".toList) ("hello".toList) =
      some (encodePair ("key".toList) ("hello".toList)) ∧
    Message.verify (encodePair ("key".toList) ("hello".toList))
      ("hello".toList) (sys_address_of ("key".toList)) = .ok true ∧
    Message.verify (encodePair ("key".toList) ("hello".toList))
      ("bye".toList) (sys_address_of ("key".toList)) = .ok false :=
  message_sign_verify_roundtrip ("key".toList) ("hello".toList)
    ("bye".toList) (by decide) (by decide) (by decide) (by decide)

/-- Claim C5: `Message::verify` is total — it never panics (its embedding
never returns `.error`) — and returns the uniform `false` on malformed
input, whether a NUL byte in any argument or a signature the oracle cannot
decode. -/
theorem verify_total_uniform_false (sig msg addr : List Char) :
    (∃ b, Message.verify sig msg addr = .ok b) ∧
    (hasNul sig = true ∨ hasNul msg = true ∨ hasNul addr = true →
      Message.verify sig msg addr = .ok false) ∧
    (decodePair sig = none → Message.verify sig msg addr = .ok false) := by
  refine ⟨?_, ?_, ?_⟩
  · unfold Message.verify
    split_ifs <;> exact ⟨_, rfl⟩
  · intro h
    unfold Message.verify
    rcases h with h | h | h <;> split_ifs <;> simp_all
  · intro h
    unfold Message.verify
    split_ifs <;> simp [sys_verify_message, h]

/-- Witness for C5: a NUL-carrying signature and an undecodable signature
both yield `.ok false`. -/
theorem verify_total_uniform_false_witness :
    Message.verify ("x\x00".toList) ("m".toList) ("a".toList) = .ok false ∧
    Message.verify ("zz".toList) ("m".toList) ("a".toList) = .ok false :=
  ⟨(verify_total_uniform_false ("x\x00".toList) ("m".toList)
      ("a".toList)).2.1 (Or.inl (by decide)),
   (verify_total_uniform_false ("zz".toList) ("m".toList)
      ("a".toList)).2.2 (by decide)⟩

/-- Claim C6 (amended): on a live, not-yet-finalized builder slot,
`add_utxo` succeeds exactly when the txid passes the purely syntactic check
(64 hex characters); there is no ledger consultation — the outcome is a
function of the txid text and the slot state alone.  A malformed txid makes
it return the generic `false`, not an `InvalidTxid` error kind. -/
theorem add_utxo_syntactic_only (tx : DogeTransaction) (s : SysState)
    (txid : List Char) (vout : Int) (t : SysTx)
    (hN : hasNul txid = false)
    (ht : findTx s.txs tx.tx_index = some t)
    (hfin : t.finalized = false) :
    bres? (tx.add_utxo s txid vout) = some (txidOk txid) := by
  by_cases hok : txidOk txid
  · simp [bres?, DogeTransaction.add_utxo, hN, sys_add_utxo, ht, hfin, hok]
  · have hok' : txidOk txid = false := by
      revert hok; cases txidOk txid <;> simp
    simp [bres?, DogeTransaction.add_utxo, hN, sys_add_utxo, ht, hfin, hok']

/-- Witness for C6: on the fresh slot, the well-formed 64-hex txid is
accepted. -/
theorem add_utxo_syntactic_only_witness :
    bres? (DogeTransaction.add_utxo ⟨0⟩ slotFresh tid64 0) = some true := by
  rw [show (true : Bool) = txidOk tid64 from by decide]
  exact add_utxo_syntactic_only ⟨0⟩ slotFresh tid64 0 emptySysTx
    (by decide) (by rfl) (by rfl)

/-- Counterexample for C6 as stated: the failure on a malformed txid is the
bare `false`, identical to the failure on an unknown builder handle with a
well-formed txid — `add_utxo` returns `bool`, so no `InvalidTxid` error
kind is reported. -/
theorem add_utxo_no_error_kind :
    bres? (DogeTransaction.add_utxo ⟨0⟩ slotFresh ("zz".toList) 0) =
      some false ∧
    bres? (DogeTransaction.add_utxo ⟨99⟩ slotFresh tid64 0) = some false := by
  constructor <;> rfl

/-- Claim C7: `AddressUtils::network` classifies `Unknown` unless
`is_valid_p2pkh` succeeds (for any external Base58Check checksum function
`chk`), and on a valid address returns the network named by the leading
version character — `n` for Testnet, otherwise (necessarily `D`) Mainnet. -/
theorem network_unknown_unless_valid (chk : List Char → Bool)
    (addr : List Char) :
    AddressUtils.network chk addr =
      (if AddressUtils.is_valid_p2pkh chk addr then
        (if addr.head? = some 'n' then AddressNetwork.Testnet
          else AddressNetwork.Mainnet)
        else AddressNetwork.Unknown) := by
  by_cases hv : AddressUtils.is_valid_p2pkh chk addr = true
  · obtain ⟨hnul, hver⟩ := is_valid_components hv
    by_cases hn : addr.head? = some 'n'
    · simp [AddressUtils.network, hv, hnul, sys_isTestnetFromB58, hn]
    · have hd : addr.head? = some 'D' := by
        have := hver
        simp [versionCharOk] at this
        rcases this with h | h
        · exact h
        · exact absurd h hn
      simp [AddressUtils.network, hv, hnul, sys_isTestnetFromB58,
        sys_isMainnetFromB58, hn, hd]
  · have hv' : AddressUtils.is_valid_p2pkh chk addr = false := by
      revert hv; cases AddressUtils.is_valid_p2pkh chk addr <;> simp
    simp [AddressUtils.network, hv']

/-- Claim C8: every transaction-builder method that converts a
caller-supplied string through `CString::new(..).expect(..)` panics — the
embedding returns `.error` with the panic message, never `.ok false` or a
`None` — whenever that string holds a NUL byte: txid for `add_utxo`,
address/amount for `add_output`, destination/fee for `finalize`,
script/privkey for `sign`, privkey for `sign_with_privkey`. -/
theorem nul_inputs_diverge (tx : DogeTransaction) (s : SysState)
    (x y : List Char) (v : Int) (c : Option (List Char)) :
    (hasNul x = true → tx.add_utxo s x v = .error "Invalid txid string") ∧
    (hasNul x = true → tx.add_output s x y = .error "Invalid address") ∧
    (hasNul x = false → hasNul y = true →
      tx.add_output s x y = .error "Invalid amount") ∧
    (hasNul x = true → tx.finalize s x y c = .error "Invalid destination") ∧
    (hasNul x = false → hasNul y = true →
      tx.finalize s x y c = .error "Invalid fee") ∧
    (hasNul x = true → tx.sign s x y = .error "Invalid script") ∧
    (hasNul x = false → hasNul y = true →
      tx.sign s x y = .error "Invalid privkey") ∧
    (hasNul y = true →
      tx.sign_with_privkey s v y = .error "Invalid privkey") := by
  refine ⟨?_, ?_, ?_, ?_, ?_, ?_, ?_, ?_⟩
  · intro h; simp [DogeTransaction.add_utxo, h]
  · intro h; simp [DogeTransaction.add_output, h]
  · intro h1 h2; simp [DogeTransaction.add_output, h1, h2]
  · intro h; simp [DogeTransaction.finalize, h]
  · intro h1 h2; simp [DogeTransaction.finalize, h1, h2]
  · intro h; simp [DogeTransaction.sign, h]
  · intro h1 h2; simp [DogeTransaction.sign, h1, h2]
  · intro h; simp [DogeTransaction.sign_with_privkey, h]

/-- Witness for C8: concrete NUL-carrying txid and private key make
`add_utxo` and `sign_with_privkey` panic with the source's `expect`
messages. -/
theorem nul_inputs_diverge_witness :
    DogeTransaction.add_utxo ⟨0⟩ slotFresh ("ab\x00cd".toList) 0 =
      .error "Invalid txid string" ∧
    DogeTransaction.sign_with_privkey ⟨0⟩ slotFresh 0 ("k\x00".toList) =
      .error "Invalid privkey" :=
  ⟨(nul_inputs_diverge ⟨0⟩ slotFresh ("ab\x00cd".toList) ("x".toList) 0
      none).1 (by decide),
   (nul_inputs_diverge ⟨0⟩ slotFresh ("x".toList) ("k\x00".toList) 0
      none).2.2.2.2.2.2.2 (by decide)⟩

/-- Claim C9: no sequence of builder operations (`add_utxo`, `add_output`,
`finalize`, `sign`, `sign_with_privkey`, `get_raw`) that runs without
panicking changes the builder's stored transaction handle: `index()` still
returns the construction-time value. -/
theorem tx_index_immutable (ops : List TxOp) (tx : DogeTransaction)
    (s : SysState) (tx' : DogeTransaction) (s' : SysState)
    (h : applyOps ops tx s = some (tx', s')) : tx'.index = tx.index := by
  induction ops generalizing tx s with
  | nil =>
    simp [applyOps] at h
    rw [DogeTransaction.index, DogeTransaction.index, h.1]
  | cons op rest ih =>
    cases hstep : applyOp tx s op with
    | none => simp [applyOps, hstep] at h
    | some q =>
      obtain ⟨tx1, s1⟩ := q
      have h1 : tx1.tx_index = tx.tx_index := applyOp_preserves_index hstep
      have h2 : tx'.index = tx1.index := by
        apply ih
        simpa [applyOps, hstep] using h
      rw [h2, DogeTransaction.index, DogeTransaction.index, h1]

/-- Witness for C9: running a concrete add-input/finalize/query sequence on
builder 0 leaves `index()` at 0. -/
theorem tx_index_immutable_witness :
    DogeTransaction.index ⟨0⟩ = DogeTransaction.index ⟨0⟩ :=
  tx_index_immutable
    [TxOp.opAddUtxo tid64 0, TxOp.opFinalize addrD feeC none, TxOp.opGetRaw]
    ⟨0⟩ slotFresh ⟨0⟩
    ⟨[(0, ⟨[(tid64, 0)], [], true, []⟩)], 1⟩ (by rfl)

/-- Claim C10: `Mnemonic::from_phrase` and `HdWallet::from_master_key` are
total constructors that store the caller-supplied text verbatim — no
wordlist, checksum, extended-key-format or network validation — and the
accessors return exactly what was stored. -/
theorem constructors_store_verbatim (p k : List Char) (t : Bool) :
    (Mnemonic.from_phrase p).phrase = p ∧
    (HdWallet.from_master_key k t).master_key = k ∧
    (HdWallet.from_master_key k t).is_testnet = t :=
  ⟨rfl, rfl, rfl⟩

end Doge
